import Mathlib

/-!
Verification of the Convex Fivetran source connector's synchronization core
(`src/sync.rs`, `src/connector.rs`, `src/convex_api.rs`), shallowly embedded
in Lean 4. The embedding models:

* the persisted `State` / `Checkpoint` model together with its serde_json
  encoding and strict decoding (`deny_unknown_fields`, externally tagged
  `Checkpoint` enum, camelCase field renaming);
* the initial-sync and delta-sync engines as pure functions from the list
  of source responses to the emitted list of `UpdateMessage`s, a terminal
  error, and the number of source calls consumed;
* the `sync` dispatcher.
-/

namespace ConvexFivetran

/-- JSON values, the image of serde_json used by the connector's state
encoding. Numbers are integers: the connector's state only ever carries
`i64` fields, and decoding enforces the `i64` range explicitly. -/
inductive Json where
  | null : Json
  | bool (b : Bool) : Json
  | num (n : Int) : Json
  | str (s : String) : Json
  | arr (elems : List Json) : Json
  | obj (fields : List (String × Json)) : Json
  deriving Repr

/-- Modelled from the spec: `ListSnapshotCursor` is the "optional opaque
pagination token" of the bulk phase. The type lives in `src/convex_api.rs`
in the full repository but is absent from the sources provided; from its
uses in `sync.rs` (`ListSnapshotCursor::from(res.cursor : String)`) it is a
newtype over a string, serialized transparently. -/
abbrev ListSnapshotCursor := String

/-- Modelled from the spec: `DocumentDeltasCursor` is the "opaque change-log
position" of the delta phase. The type is absent from the provided sources;
from its uses in `sync.rs` (`DocumentDeltasCursor::from(snapshot : i64)`,
`from(response.cursor : i64)`) it is a newtype over an `i64`, serialized
transparently as a JSON number. -/
abbrev DocumentDeltasCursor := Int

/-- `Checkpoint` from `src/sync.rs`: externally tagged two-variant enum. -/
inductive Checkpoint where
  /-- A checkpoint emitted during the initial synchronization. -/
  | initialSync (snapshot : Int) (cursor : ListSnapshotCursor) : Checkpoint
  /-- A checkpoint emitted after an initial synchronization has completed. -/
  | deltaUpdates (cursor : DocumentDeltasCursor) : Checkpoint
  deriving Repr, DecidableEq

/-- `State` from `src/sync.rs`. `tables_seen` models the optional
`HashSet<String>` as an optional list of table names (only membership is
ever used). -/
structure State where
  version : Int
  checkpoint : Checkpoint
  tables_seen : Option (List String)
  deriving Repr, DecidableEq

/-- `CURSOR_VERSION` from `src/sync.rs`. -/
def CURSOR_VERSION : Int := 1

/-- `State::create` from `src/sync.rs`. -/
def State.create (checkpoint : Checkpoint) (tables_seen : Option (List String)) : State :=
  { version := CURSOR_VERSION, checkpoint, tables_seen }

/-- The `i64` range check performed by serde_json when deserializing an
`i64` field. -/
def i64Range (n : Int) : Bool :=
  decide (-(2 ^ 63) ≤ n) && decide (n < 2 ^ 63)

/-- Deserialization of an `i64` field from a JSON value. -/
def decodeI64 : Json → Except String Int
  | .num n => if i64Range n then .ok n else .error "number out of i64 range"
  | _ => .error "expected an integer"

/-- Deserialization of a `String` field from a JSON value. -/
def decodeStr : Json → Except String String
  | .str s => .ok s
  | _ => .error "expected a string"

/-- Deserialization of a list of strings (the `HashSet<String>` payload of
`tables_seen`). -/
def decodeStrList : List Json → Except String (List String)
  | [] => .ok []
  | v :: rest => do
    let s ← decodeStr v
    let tail ← decodeStrList rest
    .ok (s :: tail)

/-- Field loop of serde's derived deserializer for the `InitialSync` struct
variant of `Checkpoint` (`deny_unknown_fields`, no renaming): both
`snapshot : i64` and `cursor : ListSnapshotCursor` are required, duplicate
and unknown fields are rejected. -/
def decodeInitialSyncFields :
    List (String × Json) → Option Int → Option ListSnapshotCursor → Except String Checkpoint
  | [], snapshotAcc, cursorAcc =>
    match snapshotAcc, cursorAcc with
    | some snapshot, some cursor => .ok (.initialSync snapshot cursor)
    | none, _ => .error "missing field snapshot"
    | _, none => .error "missing field cursor"
  | (k, v) :: rest, snapshotAcc, cursorAcc =>
    if k = "snapshot" then
      match snapshotAcc with
      | some _ => .error "duplicate field snapshot"
      | none =>
        match decodeI64 v with
        | .ok n => decodeInitialSyncFields rest (some n) cursorAcc
        | .error e => .error e
    else if k = "cursor" then
      match cursorAcc with
      | some _ => .error "duplicate field cursor"
      | none =>
        match decodeStr v with
        | .ok s => decodeInitialSyncFields rest snapshotAcc (some s)
        | .error e => .error e
    else .error ("unknown field " ++ k)

/-- Field loop of serde's derived deserializer for the `DeltaUpdates` struct
variant of `Checkpoint`. -/
def decodeDeltaUpdatesFields :
    List (String × Json) → Option DocumentDeltasCursor → Except String Checkpoint
  | [], cursorAcc =>
    match cursorAcc with
    | some cursor => .ok (.deltaUpdates cursor)
    | none => .error "missing field cursor"
  | (k, v) :: rest, cursorAcc =>
    if k = "cursor" then
      match cursorAcc with
      | some _ => .error "duplicate field cursor"
      | none =>
        match decodeI64 v with
        | .ok n => decodeDeltaUpdatesFields rest (some n)
        | .error e => .error e
    else .error ("unknown field " ++ k)

/-- Deserialization of the externally tagged `Checkpoint` enum: a JSON
object with exactly one key, which must be a known variant tag. -/
def decodeCheckpoint : Json → Except String Checkpoint
  | .obj [(tag, payload)] =>
    if tag = "InitialSync" then
      match payload with
      | .obj kvs => decodeInitialSyncFields kvs none none
      | _ => .error "expected a map for struct variant InitialSync"
    else if tag = "DeltaUpdates" then
      match payload with
      | .obj kvs => decodeDeltaUpdatesFields kvs none
      | _ => .error "expected a map for struct variant DeltaUpdates"
    else .error ("unknown variant " ++ tag)
  | _ => .error "expected a map with a single variant key"

/-- Deserialization of the optional `tables_seen` set: `null` decodes to
`none`, an array of strings to `some`. -/
def decodeTablesSeen : Json → Except String (Option (List String))
  | .null => .ok none
  | .arr elems =>
    match decodeStrList elems with
    | .ok l => .ok (some l)
    | .error e => .error e
  | _ => .error "expected an array or null for tablesSeen"

/-- Field loop of serde's derived deserializer for `State`
(`rename_all = "camelCase"`, `deny_unknown_fields`): `version` and
`checkpoint` are required, `tablesSeen` is optional (missing means `none`),
unknown and duplicate fields are rejected. -/
def decodeStateFields :
    List (String × Json) → Option Int → Option Checkpoint →
      Option (Option (List String)) → Except String State
  | [], versionAcc, checkpointAcc, tablesSeenAcc =>
    match versionAcc, checkpointAcc with
    | some version, some checkpoint =>
      .ok { version, checkpoint, tables_seen := tablesSeenAcc.getD none }
    | none, _ => .error "missing field version"
    | _, none => .error "missing field checkpoint"
  | (k, v) :: rest, versionAcc, checkpointAcc, tablesSeenAcc =>
    if k = "version" then
      match versionAcc with
      | some _ => .error "duplicate field version"
      | none =>
        match decodeI64 v with
        | .ok n => decodeStateFields rest (some n) checkpointAcc tablesSeenAcc
        | .error e => .error e
    else if k = "checkpoint" then
      match checkpointAcc with
      | some _ => .error "duplicate field checkpoint"
      | none =>
        match decodeCheckpoint v with
        | .ok c => decodeStateFields rest versionAcc (some c) tablesSeenAcc
        | .error e => .error e
    else if k = "tablesSeen" then
      match tablesSeenAcc with
      | some _ => .error "duplicate field tablesSeen"
      | none =>
        match decodeTablesSeen v with
        | .ok t => decodeStateFields rest versionAcc checkpointAcc (some t)
        | .error e => .error e
    else .error ("unknown field " ++ k)

/-- `serde_json::from_str::<State>` on an already-parsed JSON value:
the top level must be an object. -/
def decodeState : Json → Except String State
  | .obj kvs => decodeStateFields kvs none none none
  | _ => .error "expected an object for State"

/-- serde_json serialization of `Checkpoint` (externally tagged). -/
def encodeCheckpoint : Checkpoint → Json
  | .initialSync snapshot cursor =>
    .obj [("InitialSync", .obj [("snapshot", .num snapshot), ("cursor", .str cursor)])]
  | .deltaUpdates cursor =>
    .obj [("DeltaUpdates", .obj [("cursor", .num cursor)])]

/-- serde_json serialization of `State`: fields in declaration order with
camelCase names; the optional `tables_seen` serializes as `null` when
absent (serde emits `Option::None` as `null`). -/
def encodeState (s : State) : Json :=
  .obj [("version", .num s.version),
        ("checkpoint", encodeCheckpoint s.checkpoint),
        ("tablesSeen",
          match s.tables_seen with
          | some tables => .arr (tables.map .str)
          | none => .null)]

/-- A `State` is valid when all of its machine-integer fields fit in `i64`:
exactly the states representable by the Rust struct. -/
def validState (s : State) : Bool :=
  i64Range s.version &&
    match s.checkpoint with
    | .initialSync snapshot _ => i64Range snapshot
    | .deltaUpdates cursor => i64Range cursor

/-- `connector.rs` `update`: the endpoint substitutes `"{}"` for an absent
`state_json` and parses the result as a `State`. -/
def updateParseState (state_json : Option Json) : Except String State :=
  decodeState (state_json.getD (.obj []))

/-- `SnapshotValue` from `src/convex_api.rs`: one document returned by the
list snapshot / document deltas APIs. -/
structure SnapshotValue where
  table : String
  deleted : Bool
  fields : List (String × Json)
  deriving Repr

/-- `ListSnapshotResponse` from `src/convex_api.rs`. -/
structure ListSnapshotResponse where
  values : List SnapshotValue
  snapshot : Int
  cursor : Option String
  has_more : Bool
  deriving Repr

/-- `DocumentDeltasResponse` from `src/convex_api.rs`. -/
structure DocumentDeltasResponse where
  values : List SnapshotValue
  cursor : Int
  has_more : Bool
  deriving Repr

/-- `OpType` of the Fivetran SDK, restricted to the operations the engines
emit. -/
inductive OpType where
  | upsert : OpType
  | delete : OpType
  | truncate : OpType
  deriving Repr, DecidableEq

/-- `LogLevel` of the Fivetran SDK. -/
inductive LogLevel where
  | info : LogLevel
  | warning : LogLevel
  | severe : LogLevel
  deriving Repr, DecidableEq

/-- `UpdateMessage` from `src/sync.rs`, generic over the destination value
type `V` (the row conversion is external to the core). -/
inductive UpdateMessage (V : Type) where
  | log (level : LogLevel) (message : String) : UpdateMessage V
  | update (schema_name : Option String) (table_name : String)
      (op_type : OpType) (row : List (String × V)) : UpdateMessage V
  | checkpoint (state : State) : UpdateMessage V
  deriving Repr

/-- Modelled from the spec: `to_fivetran_row` lives in `src/convert.rs`,
which is not among the provided sources. Per the spec, row-level value
conversion is out of scope and "the core treats a row as an opaque mapping
of field name to semantic value"; it is modelled as a fallible per-field
conversion `conv` applied to every field, preserving field names. -/
def to_fivetran_row {V : Type} (conv : String → Json → Except String V) :
    List (String × Json) → Except String (List (String × V))
  | [] => .ok []
  | (name, value) :: rest => do
    let fv ← conv name value
    let tail ← to_fivetran_row conv rest
    .ok ((name, fv) :: tail)

/-- The outcome of running a sync engine against a list of source
responses: the emitted messages in order, the terminal error of the stream
(if any), and the number of source responses consumed. -/
structure SyncRun (V : Type) where
  messages : List (UpdateMessage V)
  err : Option String
  calls : Nat
  deriving Repr

/-- The truncate-on-first-sight step both engines run before emitting a
value's row operation (`src/sync.rs` lines 263-275 and 333-345): when
`tables_seen` is tracked and the value's table is not yet in it, insert
the table and emit a `Truncate`; when `tables_seen` is absent (legacy
state), do nothing. -/
def truncStep {V : Type} (tables_seen : Option (List String)) (table : String) :
    List (UpdateMessage V) × Option (List String) :=
  match tables_seen with
  | some ts =>
    if table ∈ ts then ([], some ts)
    else ([.update none table .truncate []], some (table :: ts))
  | none => ([], none)

/-- The body of `initial_sync`'s `for value in res.values` loop
(`src/sync.rs` lines 262-282): truncate-on-first-sight followed by an
upsert per value. Returns the emitted messages, the updated `tables_seen`,
and the row-conversion error aborting the stream, if any. -/
def initialProcessValues {V : Type} (conv : String → Json → Except String V)
    (tables_seen : Option (List String)) :
    List SnapshotValue → List (UpdateMessage V) × Option (List String) × Option String
  | [] => ([], tables_seen, none)
  | value :: rest =>
    let step : List (UpdateMessage V) × Option (List String) :=
      truncStep tables_seen value.table
    match to_fivetran_row conv value.fields with
    | .error e => (step.1, step.2, some e)
    | .ok row =>
      let next := initialProcessValues conv step.2 rest
      (step.1 ++ .update none value.table .upsert row :: next.1, next.2.1, next.2.2)

/-- The body of `delta_sync`'s `for value in response.values` loop
(`src/sync.rs` lines 332-357): truncate-on-first-sight followed by a
delete (when the entry is flagged deleted) or an upsert per value. -/
def deltaProcessValues {V : Type} (conv : String → Json → Except String V)
    (tables_seen : Option (List String)) :
    List SnapshotValue → List (UpdateMessage V) × Option (List String) × Option String
  | [] => ([], tables_seen, none)
  | value :: rest =>
    let step : List (UpdateMessage V) × Option (List String) :=
      truncStep tables_seen value.table
    match to_fivetran_row conv value.fields with
    | .error e => (step.1, step.2, some e)
    | .ok row =>
      let next := deltaProcessValues conv step.2 rest
      (step.1 ++
         .update none value.table (if value.deleted then .delete else .upsert) row :: next.1,
       next.2.1, next.2.2)

/-- The `while has_more` loop of `initial_sync` (`src/sync.rs` lines
255-311) together with the final delta handoff after the loop. Each entry
of `responses` is the result of one successful `list_snapshot` call; an
exhausted list models a failing source call. -/
def initialSyncLoop {V : Type} (conv : String → Json → Except String V) :
    List ListSnapshotResponse → Option (Int × ListSnapshotCursor) →
      Option (List String) → SyncRun V
  | [], _, _ => ⟨[], some "source call failed", 0⟩
  | res :: rest, checkpoint, tables_seen =>
    let processed := initialProcessValues conv tables_seen res.values
    match processed.2.2 with
    | some e => ⟨processed.1, some e, 1⟩
    | none =>
      if res.has_more then
        match res.cursor with
        | none => ⟨processed.1, some "Missing cursor when has_more was set", 1⟩
        | some c =>
          let pageCheckpoint : UpdateMessage V :=
            .checkpoint (State.create (.initialSync res.snapshot c) processed.2.1)
          let next := initialSyncLoop conv rest (some (res.snapshot, c)) processed.2.1
          ⟨processed.1 ++ pageCheckpoint :: next.messages, next.err, 1 + next.calls⟩
      else
        match checkpoint with
        | none => ⟨processed.1, some "list_snapshot lacking a snapshot for checkpoint", 1⟩
        | some (snapshot, _) =>
          ⟨processed.1 ++
             [.checkpoint (State.create (.deltaUpdates snapshot) processed.2.1),
              .log .info "Initial sync successful"],
           none, 1⟩

/-- `initial_sync` from `src/sync.rs`: the opening log line followed by the
page loop. `srcName` stands for the `Display` rendering of the source. -/
def initial_sync {V : Type} (conv : String → Json → Except String V) (srcName : String)
    (checkpoint : Option (Int × ListSnapshotCursor)) (tables_seen : Option (List String))
    (responses : List ListSnapshotResponse) : SyncRun V :=
  let logMsg :=
    match checkpoint with
    | some (snapshot, _) =>
      "Resuming an initial sync from " ++ srcName ++ " at " ++ toString snapshot
    | none => "Starting an initial sync from " ++ srcName
  let run := initialSyncLoop conv responses checkpoint tables_seen
  ⟨.log .info logMsg :: run.messages, run.err, run.calls⟩

/-- The `while has_more` loop of `delta_sync` (`src/sync.rs` lines
327-368): after every page the cursor advances to the response's cursor
and a `DeltaUpdates` checkpoint is emitted. -/
def deltaSyncLoop {V : Type} (conv : String → Json → Except String V) :
    List DocumentDeltasResponse → DocumentDeltasCursor → Option (List String) → SyncRun V
  | [], _, _ => ⟨[], some "source call failed", 0⟩
  | res :: rest, _, tables_seen =>
    let processed := deltaProcessValues conv tables_seen res.values
    match processed.2.2 with
    | some e => ⟨processed.1, some e, 1⟩
    | none =>
      let pageCheckpoint : UpdateMessage V :=
        .checkpoint (State.create (.deltaUpdates res.cursor) processed.2.1)
      if res.has_more then
        let next := deltaSyncLoop conv rest res.cursor processed.2.1
        ⟨processed.1 ++ pageCheckpoint :: next.messages, next.err, 1 + next.calls⟩
      else
        ⟨processed.1 ++ [pageCheckpoint, .log .info "Changes applied"], none, 1⟩

/-- `delta_sync` from `src/sync.rs`: the opening log line followed by the
page loop. -/
def delta_sync {V : Type} (conv : String → Json → Except String V) (srcName : String)
    (cursor : DocumentDeltasCursor) (tables_seen : Option (List String))
    (responses : List DocumentDeltasResponse) : SyncRun V :=
  let startMsg :=
    "Starting to apply changes from " ++ srcName ++ " starting at " ++ toString cursor
  let run := deltaSyncLoop conv responses cursor tables_seen
  ⟨.log .info startMsg :: run.messages, run.err, run.calls⟩

/-- The `sync` dispatcher from `src/sync.rs`: absent state starts a fresh
initial sync with an empty `tables_seen` set; an `InitialSync` checkpoint
resumes the initial sync; a `DeltaUpdates` checkpoint runs the delta sync.
`lsResponses`/`ddResponses` are the source's answers to `list_snapshot`
and `document_deltas` calls respectively. -/
def sync {V : Type} (conv : String → Json → Except String V) (srcName : String)
    (state : Option State) (lsResponses : List ListSnapshotResponse)
    (ddResponses : List DocumentDeltasResponse) : SyncRun V :=
  match state with
  | none => initial_sync conv srcName none (some []) lsResponses
  | some s =>
    match s.checkpoint with
    | .initialSync snapshot cursor =>
      initial_sync conv srcName (some (snapshot, cursor)) s.tables_seen lsResponses
    | .deltaUpdates cursor => delta_sync conv srcName cursor s.tables_seen ddResponses

/-- The `tables_seen` set a `sync` invocation starts from: the empty set
for an absent state, the state's set otherwise (`src/sync.rs` lines
219-238). -/
def inputTablesSeen : Option State → Option (List String)
  | none => some []
  | some s => s.tables_seen

/-- Whether an `Except` result is a success. -/
def exceptIsOk {ε α : Type} : Except ε α → Bool
  | .ok _ => true
  | .error _ => false

/-- A concrete per-field conversion used to instantiate the generic
engines on concrete runs: every field converts successfully to itself. -/
def convId : String → Json → Except String Json := fun _ v => Except.ok v

/-- A concrete per-field conversion that fails on every field, exhibiting
runs where a source call succeeds but the row conversion of one of its
entries does not. -/
def convFail : String → Json → Except String Json :=
  fun _ _ => Except.error "conversion failed"

/-- Whether a message is a checkpoint message. -/
def isCheckpointMsg {V : Type} : UpdateMessage V → Bool
  | .checkpoint _ => true
  | _ => false

/-- Whether a message list contains a checkpoint message. -/
def hasCheckpointMsg {V : Type} (msgs : List (UpdateMessage V)) : Bool :=
  msgs.any isCheckpointMsg

/-- Whether a message list contains a `DeltaUpdates` checkpoint. -/
def hasDeltaCheckpoint {V : Type} (msgs : List (UpdateMessage V)) : Bool :=
  msgs.any fun m =>
    match m with
    | .checkpoint st =>
      match st.checkpoint with
      | .deltaUpdates _ => true
      | _ => false
    | _ => false

/-- Whether a message list contains a `Truncate` operation for table `t`. -/
def hasTruncateFor {V : Type} (t : String) (msgs : List (UpdateMessage V)) : Bool :=
  msgs.any fun m =>
    match m with
    | .update _ tn .truncate _ => tn == t
    | _ => false

/-- Whether a message list contains an `Upsert` or `Delete` operation for
table `t`. -/
def hasDataFor {V : Type} (t : String) (msgs : List (UpdateMessage V)) : Bool :=
  msgs.any fun m =>
    match m with
    | .update _ tn op _ => tn == t && !(op == OpType.truncate)
    | _ => false

/-- Whether a message list contains a `Delete` operation whose row carries
a field named `f`. -/
def hasDeleteRowField {V : Type} (f : String) (msgs : List (UpdateMessage V)) : Bool :=
  msgs.any fun m =>
    match m with
    | .update _ _ .delete row => row.any fun kv => kv.1 == f
    | _ => false

/-- Truncate-before-data discipline: scanning the message list left to
right with `seen` initially the input `tables_seen` set, every `Upsert` or
`Delete` targets a table that is in `seen` at that point, and a `Truncate`
for `t` adds `t` to `seen`. This says exactly: every data operation for a
table outside the input set is strictly preceded by a `Truncate` for that
table. -/
def dataAfterTrunc {V : Type} (seen : List String) : List (UpdateMessage V) → Prop
  | [] => True
  | .update _ t op _ :: rest =>
    (op = OpType.truncate ∨ t ∈ seen) ∧
      dataAfterTrunc (if op = OpType.truncate then t :: seen else seen) rest
  | .log _ _ :: rest => dataAfterTrunc seen rest
  | .checkpoint _ :: rest => dataAfterTrunc seen rest

/-- The `seen` set after scanning a message list, starting from `seen`. -/
def seenAfter {V : Type} (seen : List String) : List (UpdateMessage V) → List String
  | [] => seen
  | .update _ t op _ :: rest =>
    seenAfter (if op = OpType.truncate then t :: seen else seen) rest
  | .log _ _ :: rest => seenAfter seen rest
  | .checkpoint _ :: rest => seenAfter seen rest

/-- The tables receiving a `Truncate` in a message list, in emission
order. -/
def truncTables {V : Type} : List (UpdateMessage V) → List String
  | [] => []
  | .update _ t op _ :: rest =>
    if op = OpType.truncate then t :: truncTables rest else truncTables rest
  | .log _ _ :: rest => truncTables rest
  | .checkpoint _ :: rest => truncTables rest

/-- The snapshot value the initial sync's final `DeltaUpdates` checkpoint
is built from: the `checkpoint` variable's snapshot when the loop reaches
the first response with no more pages — i.e. the snapshot of the last
response that had more pages, or the resume snapshot when no response had
more pages. -/
def finalSnap : Option Int → List ListSnapshotResponse → Option Int
  | _, [] => none
  | cp, r :: rest => if r.has_more then finalSnap (some r.snapshot) rest else cp

lemma decodeStrList_map (l : List String) : decodeStrList (l.map Json.str) = .ok l := by
  induction l with
  | nil => rfl
  | cons h t ih =>
    simp only [List.map, decodeStrList, decodeStr, ih]
    rfl

lemma decodeCheckpoint_encode (cp : Checkpoint)
    (h : (match cp with
          | .initialSync snapshot _ => i64Range snapshot
          | .deltaUpdates cursor => i64Range cursor) = true) :
    decodeCheckpoint (encodeCheckpoint cp) = .ok cp := by
  cases cp with
  | initialSync snapshot cursor =>
    simp only at h
    simp [encodeCheckpoint, decodeCheckpoint, decodeInitialSyncFields, decodeI64, decodeStr, h]
  | deltaUpdates cursor =>
    simp only at h
    simp [encodeCheckpoint, decodeCheckpoint, decodeDeltaUpdatesFields, decodeI64, h]

/-- Claim C3: for every valid `State` value `s`, deserializing the value
produced by serializing `s` yields exactly `s`: the serde encoding and the
strict decoder are mutually inverse on states whose integer fields fit in
`i64`. -/
theorem state_serialization_roundtrip (s : State) (h : validState s = true) :
    decodeState (encodeState s) = .ok s := by
  obtain ⟨version, checkpoint, tables_seen⟩ := s
  rw [validState, Bool.and_eq_true] at h
  obtain ⟨hv, hc⟩ := h
  simp only at hv hc
  have hcp := decodeCheckpoint_encode checkpoint hc
  cases tables_seen with
  | none =>
    simp [encodeState, decodeState, decodeStateFields, decodeI64, hv, hcp,
      decodeTablesSeen, Option.getD]
  | some tables =>
    simp [encodeState, decodeState, decodeStateFields, decodeI64, hv, hcp,
      decodeTablesSeen, decodeStrList_map, Option.getD]

/-- Claim C3 witness: the round-trip property applied at a concrete
state. -/
theorem state_serialization_roundtrip_witness :
    decodeState (encodeState ⟨1, .deltaUpdates 42, some ["messages"]⟩) =
      .ok ⟨1, .deltaUpdates 42, some ["messages"]⟩ :=
  state_serialization_roundtrip ⟨1, .deltaUpdates 42, some ["messages"]⟩ (by decide)

lemma decodeStateFields_unknown_key (kvs : List (String × Json))
    (hk : ∃ kv ∈ kvs, kv.1 ≠ "version" ∧ kv.1 ≠ "checkpoint" ∧ kv.1 ≠ "tablesSeen") :
    ∀ versionAcc checkpointAcc tablesSeenAcc,
      exceptIsOk (decodeStateFields kvs versionAcc checkpointAcc tablesSeenAcc) = false := by
  induction kvs with
  | nil => simp at hk
  | cons kv rest ih =>
    intro versionAcc checkpointAcc tablesSeenAcc
    obtain ⟨k, v⟩ := kv
    obtain ⟨bad, hmem, hbad⟩ := hk
    by_cases hv : k = "version"
    · have hrest : ∃ kv ∈ rest, kv.1 ≠ "version" ∧ kv.1 ≠ "checkpoint" ∧ kv.1 ≠ "tablesSeen" := by
        rcases List.mem_cons.1 hmem with heq | hmem'
        · exfalso; apply hbad.1; rw [heq]; exact hv
        · exact ⟨bad, hmem', hbad⟩
      simp only [decodeStateFields, if_pos hv]
      cases versionAcc with
      | some _ => rfl
      | none =>
        cases decodeI64 v with
        | ok n => exact ih hrest (some n) checkpointAcc tablesSeenAcc
        | error e => rfl
    · by_cases hc : k = "checkpoint"
      · have hrest : ∃ kv ∈ rest, kv.1 ≠ "version" ∧ kv.1 ≠ "checkpoint" ∧ kv.1 ≠ "tablesSeen" := by
          rcases List.mem_cons.1 hmem with heq | hmem'
          · exfalso; apply hbad.2.1; rw [heq]; exact hc
          · exact ⟨bad, hmem', hbad⟩
        simp only [decodeStateFields, if_neg hv, if_pos hc]
        cases checkpointAcc with
        | some _ => rfl
        | none =>
          cases decodeCheckpoint v with
          | ok c => exact ih hrest versionAcc (some c) tablesSeenAcc
          | error e => rfl
      · by_cases ht : k = "tablesSeen"
        · have hrest : ∃ kv ∈ rest, kv.1 ≠ "version" ∧ kv.1 ≠ "checkpoint" ∧ kv.1 ≠ "tablesSeen" := by
            rcases List.mem_cons.1 hmem with heq | hmem'
            · exfalso; apply hbad.2.2; rw [heq]; exact ht
            · exact ⟨bad, hmem', hbad⟩
          simp only [decodeStateFields, if_neg hv, if_neg hc, if_pos ht]
          cases tablesSeenAcc with
          | some _ => rfl
          | none =>
            cases decodeTablesSeen v with
            | ok t => exact ih hrest versionAcc checkpointAcc (some t)
            | error e => rfl
        · simp only [decodeStateFields, if_neg hv, if_neg hc, if_neg ht]
          rfl

lemma decodeCheckpoint_unknown_variant (tag : String) (payload : Json)
    (h1 : tag ≠ "InitialSync") (h2 : tag ≠ "DeltaUpdates") :
    decodeCheckpoint (.obj [(tag, payload)]) = .error ("unknown variant " ++ tag) := by
  simp only [decodeCheckpoint, if_neg h1, if_neg h2]

lemma decodeStateFields_bad_checkpoint (kvs : List (String × Json))
    (hk : ∃ v, ("checkpoint", v) ∈ kvs ∧ exceptIsOk (decodeCheckpoint v) = false) :
    ∀ versionAcc checkpointAcc tablesSeenAcc,
      exceptIsOk (decodeStateFields kvs versionAcc checkpointAcc tablesSeenAcc) = false := by
  induction kvs with
  | nil => simp at hk
  | cons kv rest ih =>
    intro versionAcc checkpointAcc tablesSeenAcc
    obtain ⟨k, v⟩ := kv
    obtain ⟨w, hmem, hfail⟩ := hk
    by_cases hv : k = "version"
    · have hrest : ∃ w, ("checkpoint", w) ∈ rest ∧ exceptIsOk (decodeCheckpoint w) = false := by
        rcases List.mem_cons.1 hmem with heq | hmem'
        · exfalso
          have : k = "checkpoint" := by
            have := congrArg Prod.fst heq.symm
            simpa using this
          rw [hv] at this
          exact absurd this (by decide)
        · exact ⟨w, hmem', hfail⟩
      simp only [decodeStateFields, if_pos hv]
      cases versionAcc with
      | some _ => rfl
      | none =>
        cases decodeI64 v with
        | ok n => exact ih hrest (some n) checkpointAcc tablesSeenAcc
        | error e => rfl
    · by_cases hc : k = "checkpoint"
      · simp only [decodeStateFields, if_neg hv, if_pos hc]
        cases checkpointAcc with
        | some _ => rfl
        | none =>
          cases hdec : decodeCheckpoint v with
          | ok c =>
            have hrest : ∃ w, ("checkpoint", w) ∈ rest ∧
                exceptIsOk (decodeCheckpoint w) = false := by
              rcases List.mem_cons.1 hmem with heq | hmem'
              · exfalso
                have hw : w = v := by
                  have := congrArg Prod.snd heq
                  simpa using this
                rw [hw, hdec] at hfail
                simp [exceptIsOk] at hfail
              · exact ⟨w, hmem', hfail⟩
            exact ih hrest versionAcc (some c) tablesSeenAcc
          | error e => rfl
      · by_cases ht : k = "tablesSeen"
        · have hrest : ∃ w, ("checkpoint", w) ∈ rest ∧
              exceptIsOk (decodeCheckpoint w) = false := by
            rcases List.mem_cons.1 hmem with heq | hmem'
            · exfalso
              have : k = "checkpoint" := by
                have := congrArg Prod.fst heq.symm
                simpa using this
              rw [ht] at this
              exact absurd this (by decide)
            · exact ⟨w, hmem', hfail⟩
          simp only [decodeStateFields, if_neg hv, if_neg hc, if_pos ht]
          cases tablesSeenAcc with
          | some _ => rfl
          | none =>
            cases decodeTablesSeen v with
            | ok t => exact ih hrest versionAcc checkpointAcc (some t)
            | error e => rfl
        · simp only [decodeStateFields, if_neg hv, if_neg hc, if_neg ht]
          rfl

/-- Claim C4: strict decoding. Decoding a `State` object always fails when
it contains an unrecognized top-level key, and decoding fails whenever the
checkpoint field's object carries a variant tag other than `InitialSync`
or `DeltaUpdates`. -/
theorem state_decoding_strict (kvs kvs2 : List (String × Json)) (tag : String) (payload : Json) :
    ((∃ kv ∈ kvs, kv.1 ≠ "version" ∧ kv.1 ≠ "checkpoint" ∧ kv.1 ≠ "tablesSeen") →
      exceptIsOk (decodeState (.obj kvs)) = false) ∧
    (("checkpoint", Json.obj [(tag, payload)]) ∈ kvs2 → tag ≠ "InitialSync" →
      tag ≠ "DeltaUpdates" → exceptIsOk (decodeState (.obj kvs2)) = false) := by
  constructor
  · intro hk
    exact decodeStateFields_unknown_key kvs hk none none none
  · intro hmem h1 h2
    apply decodeStateFields_bad_checkpoint kvs2 _ none none none
    refine ⟨Json.obj [(tag, payload)], hmem, ?_⟩
    rw [decodeCheckpoint_unknown_variant tag payload h1 h2]
    rfl

/-- Claim C4 witness: the repository's own two rejection examples — the
object with the unknown key `a`, and a checkpoint tagged `NewState`. -/
theorem state_decoding_strict_witness :
    exceptIsOk (decodeState (.obj [("a", .str "b")])) = false ∧
    exceptIsOk (decodeState (.obj [("version", .num 1),
      ("checkpoint", .obj [("NewState", .obj [("cursor", .num 42)])])])) = false := by
  constructor
  · exact (state_decoding_strict [("a", .str "b")] [] "x" .null).1
      ⟨("a", .str "b"), by simp, by decide, by decide, by decide⟩
  · exact (state_decoding_strict [] [("version", .num 1),
      ("checkpoint", .obj [("NewState", .obj [("cursor", .num 42)])])]
      "NewState" (.obj [("cursor", .num 42)])).2 (by simp) (by decide) (by decide)

/-- Claim C5: the `update` endpoint substitutes `{}` for an absent
`state_json` and parses it as a `State`; with the `State` struct of
`src/sync.rs` (required `version` and `checkpoint` fields) this parse
FAILS — the decoded result is an error, not the fresh-start state the
spec and the endpoint's own substitution intend. -/
theorem update_empty_state_fails :
    updateParseState none = .error "missing field version" := rfl

/-- Claim C8 counterexample: a persisted `InitialSync` checkpoint with
`snapshot: null` and `cursor: null` is rejected by the decoder — the
fields are not optional. -/
theorem initial_sync_nulls_rejected :
    exceptIsOk (decodeState (.obj [("version", .num 1),
      ("checkpoint", .obj [("InitialSync",
        .obj [("snapshot", Json.null), ("cursor", Json.null)])])])) = false := rfl

/-- Claim C8 amended: in the persisted encoding both `InitialSync` fields
are required and non-nullable — an integer `snapshot` together with a
string `cursor` decodes successfully, while `null` for either field makes
decoding fail. -/
theorem initial_sync_fields_required (n : Int) (c : String) (hn : i64Range n = true) :
    decodeCheckpoint (.obj [("InitialSync",
        .obj [("snapshot", .num n), ("cursor", .str c)])]) = .ok (.initialSync n c) ∧
    exceptIsOk (decodeCheckpoint (.obj [("InitialSync",
        .obj [("snapshot", Json.null), ("cursor", .str c)])])) = false ∧
    exceptIsOk (decodeCheckpoint (.obj [("InitialSync",
        .obj [("snapshot", .num n), ("cursor", Json.null)])])) = false := by
  refine ⟨?_, ?_, ?_⟩
  · simp [decodeCheckpoint, decodeInitialSyncFields, decodeI64, decodeStr, hn]
  · rfl
  · simp [decodeCheckpoint, decodeInitialSyncFields, decodeI64, decodeStr, hn, exceptIsOk]

/-- Claim C8 witness: the required-fields theorem applied at the
repository's own test vector `snapshot = 42`, `cursor = "abc123"`. -/
theorem initial_sync_fields_required_witness :
    decodeCheckpoint (.obj [("InitialSync",
        .obj [("snapshot", .num 42), ("cursor", .str "abc123")])]) =
      .ok (.initialSync 42 "abc123") ∧
    exceptIsOk (decodeCheckpoint (.obj [("InitialSync",
        .obj [("snapshot", Json.null), ("cursor", .str "abc123")])])) = false ∧
    exceptIsOk (decodeCheckpoint (.obj [("InitialSync",
        .obj [("snapshot", .num 42), ("cursor", Json.null)])])) = false :=
  initial_sync_fields_required 42 "abc123" (by decide)

/-- Claim C1 counterexample: a fresh initial sync (no checkpoint) whose
very first `list_snapshot` response reports no more pages terminates with
the error `list_snapshot lacking a snapshot for checkpoint` and emits no
`DeltaUpdates` handoff checkpoint at all — even though every source
response was successful. -/
theorem initial_sync_no_handoff_counterexample :
    (initial_sync convId "src" none (some [])
        [{ values := [], snapshot := 10, cursor := some "c", has_more := false }]).err =
      some "list_snapshot lacking a snapshot for checkpoint" ∧
    hasDeltaCheckpoint (initial_sync convId "src" none (some [])
        [{ values := [], snapshot := 10, cursor := some "c", has_more := false }]).messages =
      false :=
  ⟨rfl, rfl⟩

lemma initialSyncLoop_handoff {V : Type} (conv : String → Json → Except String V) :
    ∀ (responses : List ListSnapshotResponse) (cp : Option (Int × ListSnapshotCursor))
      (ts : Option (List String)),
      (initialSyncLoop conv responses cp ts).err = none →
      ∃ snap seen pre,
        finalSnap (cp.map Prod.fst) responses = some snap ∧
        (initialSyncLoop conv responses cp ts).messages =
          pre ++ [.checkpoint (State.create (.deltaUpdates snap) seen),
                  .log .info "Initial sync successful"] := by
  intro responses
  induction responses with
  | nil =>
    intro cp ts h
    simp [initialSyncLoop] at h
  | cons res rest ih =>
    intro cp ts h
    rcases hp : initialProcessValues conv ts res.values with ⟨msgs, ts', errv⟩
    simp only [initialSyncLoop, hp] at h ⊢
    cases errv with
    | some e => simp at h
    | none =>
      cases hhm : res.has_more with
      | true =>
        simp only [hhm, if_true] at h ⊢
        cases hcur : res.cursor with
        | none => simp [hcur] at h
        | some c =>
          simp only [hcur] at h ⊢
          obtain ⟨snap, seen, pre, hfs, hmsg⟩ := ih (some (res.snapshot, c)) ts' h
          refine ⟨snap, seen, msgs ++ .checkpoint (State.create
            (.initialSync res.snapshot c) ts') :: pre, ?_, ?_⟩
          · simpa [finalSnap, hhm] using hfs
          · simp [hmsg, List.append_assoc]
      | false =>
        simp only [hhm, if_false, Bool.false_eq_true] at h ⊢
        cases cp with
        | none => simp at h
        | some p =>
          obtain ⟨snapshot, c0⟩ := p
          refine ⟨snapshot, ts', msgs, ?_, ?_⟩
          · simp [finalSnap, hhm]
          · simp

/-- Claim C1 amended: an initial sync run that terminates without error —
which requires, when started fresh, that some response reported more pages
before the final one (otherwise the run fails with
`list_snapshot lacking a snapshot for checkpoint` instead) — ends with a
`Checkpoint` whose checkpoint is `DeltaUpdates` with cursor equal to the
snapshot recorded by the last emitted page checkpoint (the resume snapshot
when no page reported more), followed by the closing `Log`. -/
theorem initial_sync_handoff {V : Type} (conv : String → Json → Except String V)
    (srcName : String) (checkpoint : Option (Int × ListSnapshotCursor))
    (tables_seen : Option (List String)) (responses : List ListSnapshotResponse)
    (h : (initial_sync conv srcName checkpoint tables_seen responses).err = none) :
    ∃ snap seen pre,
      finalSnap (checkpoint.map Prod.fst) responses = some snap ∧
      (initial_sync conv srcName checkpoint tables_seen responses).messages =
        pre ++ [.checkpoint (State.create (.deltaUpdates snap) seen),
                .log .info "Initial sync successful"] := by
  have h' : (initialSyncLoop conv responses checkpoint tables_seen).err = none := h
  obtain ⟨snap, seen, pre, hfs, hmsg⟩ :=
    initialSyncLoop_handoff conv responses checkpoint tables_seen h'
  cases checkpoint with
  | none =>
    exact ⟨snap, seen, .log .info ("Starting an initial sync from " ++ srcName) :: pre,
      hfs, by simp [initial_sync, hmsg]⟩
  | some p =>
    obtain ⟨snapshot, c⟩ := p
    exact ⟨snap, seen, .log .info ("Resuming an initial sync from " ++ srcName ++ " at " ++
      toString snapshot) :: pre, hfs, by simp [initial_sync, hmsg]⟩

/-- Claim C1 witness: the handoff theorem applied to a concrete error-free
two-page fresh run. -/
theorem initial_sync_handoff_witness :
    ∃ snap seen pre,
      finalSnap none
        [{ values := [], snapshot := 5, cursor := some "c1", has_more := true },
         { values := [], snapshot := 5, cursor := some "c2", has_more := false }] = some snap ∧
      (initial_sync convId "src" none (some [])
        [{ values := [], snapshot := 5, cursor := some "c1", has_more := true },
         { values := [], snapshot := 5, cursor := some "c2", has_more := false }]).messages =
        pre ++ [.checkpoint (State.create (.deltaUpdates snap) seen),
                .log .info "Initial sync successful"] :=
  initial_sync_handoff convId "src" none (some [])
    [{ values := [], snapshot := 5, cursor := some "c1", has_more := true },
     { values := [], snapshot := 5, cursor := some "c2", has_more := false }] rfl

lemma truncStep_updates_only {V : Type} (ts : Option (List String)) (t : String) :
    ∀ m ∈ (truncStep (V := V) ts t).1, isCheckpointMsg m = false := by
  intro m hm
  cases ts with
  | none => simp [truncStep] at hm
  | some s =>
    by_cases h : t ∈ s
    · simp [truncStep, h] at hm
    · simp [truncStep, h] at hm
      rw [hm]
      rfl

lemma initialProcessValues_updates_only {V : Type} (conv : String → Json → Except String V) :
    ∀ (values : List SnapshotValue) (ts : Option (List String)) (m : UpdateMessage V),
      m ∈ (initialProcessValues conv ts values).1 → isCheckpointMsg m = false := by
  intro values
  induction values with
  | nil =>
    intro ts m hm
    simp [initialProcessValues] at hm
  | cons value rest ih =>
    intro ts m hm
    cases hrow : to_fivetran_row conv value.fields with
    | error e =>
      simp only [initialProcessValues, hrow] at hm
      exact truncStep_updates_only ts value.table m hm
    | ok row =>
      simp only [initialProcessValues, hrow, List.mem_append, List.mem_cons] at hm
      rcases hm with hm | hm | hm
      · exact truncStep_updates_only ts value.table m hm
      · rw [hm]; rfl
      · exact ih _ m hm

/-- Claim C6: when a `list_snapshot` response reports more pages but
carries no continuation cursor, the initial sync terminates with an error
right after that response's row operations: the emitted messages are
exactly the rows of that page (no checkpoint among them), and no further
source call is made — `calls = 1` no matter how many more responses the
source could have served. -/
theorem missing_cursor_fatal {V : Type} (conv : String → Json → Except String V)
    (r : ListSnapshotResponse) (rest : List ListSnapshotResponse)
    (cp : Option (Int × ListSnapshotCursor)) (ts : Option (List String))
    (hmore : r.has_more = true) (hcur : r.cursor = none) :
    (initialSyncLoop conv (r :: rest) cp ts).calls = 1 ∧
    (initialSyncLoop conv (r :: rest) cp ts).err.isSome = true ∧
    (initialSyncLoop conv (r :: rest) cp ts).messages =
      (initialProcessValues conv ts r.values).1 ∧
    ∀ m ∈ (initialSyncLoop conv (r :: rest) cp ts).messages, isCheckpointMsg m = false := by
  rcases hp : initialProcessValues conv ts r.values with ⟨msgs, ts', errv⟩
  have hnc : ∀ m ∈ msgs, isCheckpointMsg m = false := by
    intro m hm
    apply initialProcessValues_updates_only conv r.values ts
    rw [hp]
    exact hm
  cases errv with
  | some e =>
    refine ⟨by simp [initialSyncLoop, hp], by simp [initialSyncLoop, hp],
      by simp [initialSyncLoop, hp], ?_⟩
    intro m hm
    apply hnc
    simpa [initialSyncLoop, hp] using hm
  | none =>
    refine ⟨by simp [initialSyncLoop, hp, hmore, hcur],
      by simp [initialSyncLoop, hp, hmore, hcur],
      by simp [initialSyncLoop, hp, hmore, hcur], ?_⟩
    intro m hm
    apply hnc
    simpa [initialSyncLoop, hp, hmore, hcur] using hm

/-- Claim C6 witness: the fatal-missing-cursor theorem applied to a
concrete run whose first response has `has_more = true` and no cursor,
with one further response available that is never requested. -/
theorem missing_cursor_fatal_witness :
    (initialSyncLoop convId
      [{ values := [{ table := "t", deleted := false, fields := [("_id", .str "x")] }],
         snapshot := 1, cursor := none, has_more := true },
       { values := [], snapshot := 1, cursor := some "c", has_more := false }]
      none (some [])).calls = 1 ∧
    (initialSyncLoop convId
      [{ values := [{ table := "t", deleted := false, fields := [("_id", .str "x")] }],
         snapshot := 1, cursor := none, has_more := true },
       { values := [], snapshot := 1, cursor := some "c", has_more := false }]
      none (some [])).err.isSome = true ∧
    (initialSyncLoop convId
      [{ values := [{ table := "t", deleted := false, fields := [("_id", .str "x")] }],
         snapshot := 1, cursor := none, has_more := true },
       { values := [], snapshot := 1, cursor := some "c", has_more := false }]
      none (some [])).messages =
      (initialProcessValues convId (some [])
        [{ table := "t", deleted := false, fields := [("_id", .str "x")] }]).1 ∧
    ∀ m ∈ (initialSyncLoop convId
      [{ values := [{ table := "t", deleted := false, fields := [("_id", .str "x")] }],
         snapshot := 1, cursor := none, has_more := true },
       { values := [], snapshot := 1, cursor := some "c", has_more := false }]
      none (some [])).messages, isCheckpointMsg m = false :=
  missing_cursor_fatal convId
    { values := [{ table := "t", deleted := false, fields := [("_id", .str "x")] }],
      snapshot := 1, cursor := none, has_more := true }
    [{ values := [], snapshot := 1, cursor := some "c", has_more := false }]
    none (some []) rfl rfl

lemma deltaSyncLoop_checkpoints {V : Type} (conv : String → Json → Except String V) :
    ∀ (responses : List DocumentDeltasResponse) (cursor : DocumentDeltasCursor)
      (ts : Option (List String)),
      (deltaSyncLoop conv responses cursor ts).err = none →
      1 ≤ (deltaSyncLoop conv responses cursor ts).calls ∧
      ∀ r ∈ responses.take (deltaSyncLoop conv responses cursor ts).calls,
        ∃ seen, UpdateMessage.checkpoint (State.create (.deltaUpdates r.cursor) seen) ∈
          (deltaSyncLoop conv responses cursor ts).messages := by
  intro responses
  induction responses with
  | nil =>
    intro cursor ts h
    simp [deltaSyncLoop] at h
  | cons res rest ih =>
    intro cursor ts h
    rcases hp : deltaProcessValues conv ts res.values with ⟨msgs, ts', errv⟩
    simp only [deltaSyncLoop, hp] at h ⊢
    cases errv with
    | some e => simp at h
    | none =>
      cases hhm : res.has_more with
      | true =>
        simp only [hhm, if_true] at h ⊢
        obtain ⟨hcalls, hmem⟩ := ih res.cursor ts' h
        constructor
        · omega
        · intro r hr
          rw [Nat.add_comm, List.take_succ_cons] at hr
          rcases List.mem_cons.1 hr with heq | hr'
          · subst heq
            exact ⟨ts', List.mem_append_right msgs (List.mem_cons_self _ _)⟩
          · obtain ⟨seen, hseen⟩ := hmem r hr'
            exact ⟨seen, List.mem_append_right msgs (List.mem_cons_of_mem _ hseen)⟩
      | false =>
        simp only [hhm, if_false, Bool.false_eq_true] at h ⊢
        constructor
        · omega
        · intro r hr
          rw [List.take_succ_cons, List.take_zero] at hr
          rcases List.mem_cons.1 hr with heq | hr'
          · subst heq
            exact ⟨ts', List.mem_append_right msgs (List.mem_cons_self _ _)⟩
          · simp at hr'

/-- Claim C10 counterexample: a delta sync invocation whose single
`document_deltas` call succeeds (one response is consumed) but whose page
carries an entry the row conversion rejects terminates with the
conversion error before the page checkpoint is reached, emitting no
`Checkpoint` message at all — so an invocation in which all
`document_deltas` calls succeed need not emit a checkpoint. -/
theorem delta_sync_no_checkpoint_on_conversion_failure :
    (delta_sync convFail "src" 0 (some [])
        [{ values := [{ table := "t", deleted := false, fields := [("_id", .str "x")] }],
           cursor := 1, has_more := false }]).calls = 1 ∧
    (delta_sync convFail "src" 0 (some [])
        [{ values := [{ table := "t", deleted := false, fields := [("_id", .str "x")] }],
           cursor := 1, has_more := false }]).err = some "conversion failed" ∧
    hasCheckpointMsg (delta_sync convFail "src" 0 (some [])
        [{ values := [{ table := "t", deleted := false, fields := [("_id", .str "x")] }],
           cursor := 1, has_more := false }]).messages = false :=
  ⟨rfl, rfl, rfl⟩

/-- Claim C10 amended: every delta sync invocation that terminates without
error — which requires both that all `document_deltas` calls succeed and
that every returned entry's row conversion succeeds — makes at least one
call and emits at least one `Checkpoint`; moreover for every consumed
page — including pages with zero entries — a `DeltaUpdates` checkpoint
carrying that response's new cursor appears among the emitted messages.
(A run whose calls all succeed but whose row conversion fails emits the
conversion error before the page checkpoint, so it may emit none.) -/
theorem delta_sync_always_checkpoints {V : Type} (conv : String → Json → Except String V)
    (srcName : String) (cursor : DocumentDeltasCursor) (ts : Option (List String))
    (responses : List DocumentDeltasResponse)
    (h : (delta_sync conv srcName cursor ts responses).err = none) :
    (∃ st, UpdateMessage.checkpoint st ∈
        (delta_sync conv srcName cursor ts responses).messages) ∧
    1 ≤ (delta_sync conv srcName cursor ts responses).calls ∧
    ∀ r ∈ responses.take (delta_sync conv srcName cursor ts responses).calls,
      ∃ seen, UpdateMessage.checkpoint (State.create (.deltaUpdates r.cursor) seen) ∈
        (delta_sync conv srcName cursor ts responses).messages := by
  have h' : (deltaSyncLoop conv responses cursor ts).err = none := h
  obtain ⟨hcalls, hmem⟩ := deltaSyncLoop_checkpoints conv responses cursor ts h'
  have hmsgs : (delta_sync conv srcName cursor ts responses).messages =
      .log .info ("Starting to apply changes from " ++ srcName ++ " starting at " ++
        toString cursor) :: (deltaSyncLoop conv responses cursor ts).messages := rfl
  have hcalls' : (delta_sync conv srcName cursor ts responses).calls =
      (deltaSyncLoop conv responses cursor ts).calls := rfl
  refine ⟨?_, ?_, ?_⟩
  · cases responses with
    | nil => simp [deltaSyncLoop] at h'
    | cons r0 rest =>
      have hr0 : r0 ∈ (r0 :: rest).take (deltaSyncLoop conv (r0 :: rest) cursor ts).calls := by
        rcases Nat.exists_eq_add_of_le hcalls with ⟨k, hk⟩
        rw [hk, Nat.add_comm, List.take_succ_cons]
        exact List.mem_cons_self _ _
      obtain ⟨seen, hseen⟩ := hmem r0 hr0
      exact ⟨State.create (.deltaUpdates r0.cursor) seen, by
        rw [hmsgs]; exact List.mem_cons_of_mem _ hseen⟩
  · rw [hcalls']; exact hcalls
  · intro r hr
    rw [hcalls'] at hr
    obtain ⟨seen, hseen⟩ := hmem r hr
    exact ⟨seen, by rw [hmsgs]; exact List.mem_cons_of_mem _ hseen⟩

/-- Claim C10 witness: a delta sync over a single page with zero entries
completes without error and still emits the `DeltaUpdates` checkpoint with
the response's cursor. -/
theorem delta_sync_always_checkpoints_witness :
    (∃ st, UpdateMessage.checkpoint st ∈
        (delta_sync convId "src" 0 (some [])
          [{ values := [], cursor := 7, has_more := false }]).messages) ∧
    1 ≤ (delta_sync convId "src" 0 (some [])
          [{ values := [], cursor := 7, has_more := false }]).calls ∧
    ∀ r ∈ [({ values := [], cursor := 7, has_more := false } : DocumentDeltasResponse)].take
        (delta_sync convId "src" 0 (some [])
          [{ values := [], cursor := 7, has_more := false }]).calls,
      ∃ seen, UpdateMessage.checkpoint (State.create (.deltaUpdates r.cursor) seen) ∈
        (delta_sync convId "src" 0 (some [])
          [{ values := [], cursor := 7, has_more := false }]).messages :=
  delta_sync_always_checkpoints convId "src" 0 (some [])
    [{ values := [], cursor := 7, has_more := false }] rfl

/-- Claim C7 counterexample: the delta sync engine passes an entry's
fields through to the emitted row unchanged — for a deleted entry whose
fields carry a non-identity field `extra`, the emitted `Delete` row
carries `extra` too, so the `Delete` row is not restricted to the identity
field. -/
theorem delta_delete_row_not_identity_only :
    hasDeleteRowField "extra" (delta_sync convId "src" 0 none
      [{ values := [{ table := "t", deleted := true,
                      fields := [("_id", .str "x"), ("extra", .num 1)] }],
         cursor := 1, has_more := false }]).messages = true := rfl

lemma deltaProcessValues_row_ops {V : Type} (conv : String → Json → Except String V) :
    ∀ (values : List SnapshotValue) (ts : Option (List String)) (v : SnapshotValue)
      (row : List (String × V)),
      (deltaProcessValues conv ts values).2.2 = none →
      v ∈ values → to_fivetran_row conv v.fields = .ok row →
      UpdateMessage.update none v.table (if v.deleted then OpType.delete else .upsert) row ∈
        (deltaProcessValues conv ts values).1 := by
  intro values
  induction values with
  | nil =>
    intro ts v row herr hv hrow
    simp at hv
  | cons value rest ih =>
    intro ts v row herr hv hrow
    rcases List.mem_cons.1 hv with heq | hv'
    · subst heq
      cases hrow0 : to_fivetran_row conv v.fields with
      | error e => rw [hrow0] at hrow; exact absurd hrow (by simp)
      | ok row0 =>
        have hreq : row = row0 := Except.ok.inj (hrow0.symm.trans hrow).symm
        subst hreq
        simp only [deltaProcessValues, hrow0]
        exact List.mem_append_right _ (List.mem_cons_self _ _)
    · cases hrow0 : to_fivetran_row conv value.fields with
      | error e =>
        simp only [deltaProcessValues, hrow0] at herr
        exact absurd herr (by simp)
      | ok row0 =>
        simp only [deltaProcessValues, hrow0] at herr ⊢
        exact List.mem_append_right _ (List.mem_cons_of_mem _ (ih _ v row herr hv' hrow))

lemma deltaSyncLoop_row_ops {V : Type} (conv : String → Json → Except String V) :
    ∀ (responses : List DocumentDeltasResponse) (cursor : DocumentDeltasCursor)
      (ts : Option (List String)) (r : DocumentDeltasResponse) (v : SnapshotValue)
      (row : List (String × V)),
      (deltaSyncLoop conv responses cursor ts).err = none →
      r ∈ responses.take (deltaSyncLoop conv responses cursor ts).calls →
      v ∈ r.values → to_fivetran_row conv v.fields = .ok row →
      UpdateMessage.update none v.table (if v.deleted then OpType.delete else .upsert) row ∈
        (deltaSyncLoop conv responses cursor ts).messages := by
  intro responses
  induction responses with
  | nil =>
    intro cursor ts r v row h hr
    simp [deltaSyncLoop] at h
  | cons res rest ih =>
    intro cursor ts r v row h hr hv hrow
    rcases hp : deltaProcessValues conv ts res.values with ⟨msgs, ts', errv⟩
    simp only [deltaSyncLoop, hp] at h hr ⊢
    cases errv with
    | some e => simp at h
    | none =>
      have herr : (deltaProcessValues conv ts res.values).2.2 = none := by rw [hp]
      cases hhm : res.has_more with
      | true =>
        simp only [hhm, if_true] at h hr ⊢
        rw [Nat.add_comm, List.take_succ_cons] at hr
        rcases List.mem_cons.1 hr with heq | hr'
        · subst heq
          have := deltaProcessValues_row_ops conv r.values ts v row herr hv hrow
          rw [hp] at this
          exact List.mem_append_left _ this
        · exact List.mem_append_right _ (List.mem_cons_of_mem _
            (ih res.cursor ts' r v row h hr' hv hrow))
      | false =>
        simp only [hhm, if_false, Bool.false_eq_true] at h hr ⊢
        have heq : r = res := by simpa using hr
        subst heq
        have := deltaProcessValues_row_ops conv r.values ts v row herr hv hrow
        rw [hp] at this
        exact List.mem_append_left _ this

/-- Claim C7 amended: for every entry of every consumed `document_deltas`
page of an error-free delta sync run, the engine emits a `RowOp` whose
operation type is `Delete` when the entry's deleted flag is set and
`Upsert` otherwise, carrying the entry's converted fields in both cases —
the row is the conversion of exactly the fields the entry carries (so it
is identity-only precisely when the source sends only the identity field,
which the engine does not enforce). -/
theorem delta_sync_row_ops {V : Type} (conv : String → Json → Except String V)
    (srcName : String) (cursor : DocumentDeltasCursor) (ts : Option (List String))
    (responses : List DocumentDeltasResponse) (r : DocumentDeltasResponse)
    (v : SnapshotValue) (row : List (String × V))
    (h : (delta_sync conv srcName cursor ts responses).err = none)
    (hr : r ∈ responses.take (delta_sync conv srcName cursor ts responses).calls)
    (hv : v ∈ r.values) (hrow : to_fivetran_row conv v.fields = .ok row) :
    UpdateMessage.update none v.table (if v.deleted then OpType.delete else .upsert) row ∈
      (delta_sync conv srcName cursor ts responses).messages := by
  have h' : (deltaSyncLoop conv responses cursor ts).err = none := h
  have hr' : r ∈ responses.take (deltaSyncLoop conv responses cursor ts).calls := hr
  exact List.mem_cons_of_mem _ (deltaSyncLoop_row_ops conv responses cursor ts r v row h' hr' hv hrow)

/-- Claim C7 witness: the row-operation theorem applied to a concrete run
with one deleted entry (fields carrying only the identity) and one live
entry. -/
theorem delta_sync_row_ops_witness :
    UpdateMessage.update none "t"
      (if true then OpType.delete else .upsert) [("_id", Json.str "x")] ∈
      (delta_sync convId "src" 0 (some [])
        [{ values := [{ table := "t", deleted := true, fields := [("_id", .str "x")] },
                      { table := "t", deleted := false, fields := [("_id", .str "y")] }],
           cursor := 2, has_more := false }]).messages :=
  delta_sync_row_ops convId "src" 0 (some [])
    [{ values := [{ table := "t", deleted := true, fields := [("_id", .str "x")] },
                  { table := "t", deleted := false, fields := [("_id", .str "y")] }],
       cursor := 2, has_more := false }]
    { values := [{ table := "t", deleted := true, fields := [("_id", .str "x")] },
                 { table := "t", deleted := false, fields := [("_id", .str "y")] }],
      cursor := 2, has_more := false }
    { table := "t", deleted := true, fields := [("_id", .str "x")] }
    [("_id", Json.str "x")] rfl (by exact List.mem_cons_self _ _)
    (by exact List.mem_cons_self _ _) rfl

lemma mem_seenAfter_of_mem {V : Type} :
    ∀ (l : List (UpdateMessage V)) (s : List String) (t : String),
      t ∈ s → t ∈ seenAfter s l := by
  intro l
  induction l with
  | nil => intro s t ht; simpa [seenAfter] using ht
  | cons m rest ih =>
    intro s t ht
    cases m with
    | log lvl msg => exact ih s t ht
    | checkpoint st => exact ih s t ht
    | update sn tn op row =>
      by_cases hop : op = OpType.truncate
      · simp only [seenAfter, if_pos hop]
        exact ih _ t (List.mem_cons_of_mem _ ht)
      · simp only [seenAfter, if_neg hop]
        exact ih s t ht

lemma mem_seenAfter_of_mem_truncTables {V : Type} :
    ∀ (l : List (UpdateMessage V)) (s : List String) (t : String),
      t ∈ truncTables l → t ∈ seenAfter s l := by
  intro l
  induction l with
  | nil => intro s t ht; simp [truncTables] at ht
  | cons m rest ih =>
    intro s t ht
    cases m with
    | log lvl msg => exact ih s t ht
    | checkpoint st => exact ih s t ht
    | update sn tn op row =>
      by_cases hop : op = OpType.truncate
      · simp only [truncTables, if_pos hop] at ht
        simp only [seenAfter, if_pos hop]
        rcases List.mem_cons.1 ht with heq | ht'
        · subst heq
          exact mem_seenAfter_of_mem rest _ t (List.mem_cons_self _ _)
        · exact ih _ t ht'
      · simp only [truncTables, if_neg hop] at ht
        simp only [seenAfter, if_neg hop]
        exact ih s t ht

lemma dataAfterTrunc_append {V : Type} :
    ∀ (l₁ l₂ : List (UpdateMessage V)) (s : List String),
      dataAfterTrunc s (l₁ ++ l₂) ↔
        (dataAfterTrunc s l₁ ∧ dataAfterTrunc (seenAfter s l₁) l₂) := by
  intro l₁
  induction l₁ with
  | nil => intro l₂ s; simp [dataAfterTrunc, seenAfter]
  | cons m rest ih =>
    intro l₂ s
    cases m with
    | log lvl msg => simpa [dataAfterTrunc, seenAfter] using ih l₂ s
    | checkpoint st => simpa [dataAfterTrunc, seenAfter] using ih l₂ s
    | update sn tn op row =>
      simp only [List.cons_append, dataAfterTrunc, seenAfter, List.append_eq, ih, and_assoc]

lemma truncTables_append {V : Type} :
    ∀ (l₁ l₂ : List (UpdateMessage V)),
      truncTables (l₁ ++ l₂) = truncTables l₁ ++ truncTables l₂ := by
  intro l₁
  induction l₁ with
  | nil => intro l₂; simp [truncTables]
  | cons m rest ih =>
    intro l₂
    cases m with
    | log lvl msg => simpa [truncTables] using ih l₂
    | checkpoint st => simpa [truncTables] using ih l₂
    | update sn tn op row =>
      by_cases hop : op = OpType.truncate
      · simp [truncTables, if_pos hop, ih l₂]
      · simp [truncTables, if_neg hop, ih l₂]

lemma seenAfter_cons_trunc {V : Type} (s : List String) (sn : Option String) (tn : String)
    (row : List (String × V)) (l : List (UpdateMessage V)) :
    seenAfter s (.update sn tn .truncate row :: l) = seenAfter (tn :: s) l := by
  simp [seenAfter]

lemma seenAfter_cons_data {V : Type} (s : List String) (sn : Option String) (tn : String)
    (op : OpType) (row : List (String × V)) (l : List (UpdateMessage V))
    (h : op ≠ OpType.truncate) :
    seenAfter s (.update sn tn op row :: l) = seenAfter s l := by
  simp [seenAfter, h]

lemma truncTables_cons_trunc {V : Type} (sn : Option String) (tn : String)
    (row : List (String × V)) (l : List (UpdateMessage V)) :
    truncTables (.update sn tn .truncate row :: l) = tn :: truncTables l := by
  simp [truncTables]

lemma truncTables_cons_data {V : Type} (sn : Option String) (tn : String) (op : OpType)
    (row : List (String × V)) (l : List (UpdateMessage V)) (h : op ≠ OpType.truncate) :
    truncTables (.update sn tn op row :: l) = truncTables l := by
  simp [truncTables, h]

lemma dataAfterTrunc_cons_trunc {V : Type} (s : List String) (sn : Option String)
    (tn : String) (row : List (String × V)) (l : List (UpdateMessage V)) :
    dataAfterTrunc s (.update sn tn .truncate row :: l) ↔ dataAfterTrunc (tn :: s) l := by
  simp [dataAfterTrunc]

lemma dataAfterTrunc_cons_data {V : Type} (s : List String) (sn : Option String)
    (tn : String) (op : OpType) (row : List (String × V)) (l : List (UpdateMessage V))
    (h : op ≠ OpType.truncate) :
    dataAfterTrunc s (.update sn tn op row :: l) ↔ (tn ∈ s ∧ dataAfterTrunc s l) := by
  simp [dataAfterTrunc, h]

lemma initialProcessValues_truncFacts {V : Type} (conv : String → Json → Except String V) :
    ∀ (values : List SnapshotValue) (s : List String),
      (initialProcessValues conv (some s) values).2.1 =
        some (seenAfter s (initialProcessValues conv (some s) values).1) ∧
      dataAfterTrunc s (initialProcessValues conv (some s) values).1 ∧
      (truncTables (initialProcessValues conv (some s) values).1).Nodup ∧
      ∀ t ∈ truncTables (initialProcessValues conv (some s) values).1, t ∉ s := by
  intro values
  induction values with
  | nil =>
    intro s
    refine ⟨rfl, trivial, List.nodup_nil, ?_⟩
    intro t ht
    simp [truncTables] at ht
  | cons value rest ih =>
    intro s
    by_cases hmem : value.table ∈ s
    · cases hrow : to_fivetran_row conv value.fields with
      | error e =>
        simp only [initialProcessValues, hrow, truncStep, if_pos hmem]
        refine ⟨rfl, trivial, List.nodup_nil, ?_⟩
        intro t ht
        simp [truncTables] at ht
      | ok row =>
        obtain ⟨ihts, ihdat, ihnd, ihnotin⟩ := ih s
        simp only [initialProcessValues, hrow, truncStep, if_pos hmem, List.nil_append]
        have hup : OpType.upsert ≠ OpType.truncate := by decide
        refine ⟨?_, ?_, ?_, ?_⟩
        · rw [seenAfter_cons_data _ _ _ _ _ _ hup]
          exact ihts
        · rw [dataAfterTrunc_cons_data _ _ _ _ _ _ hup]
          exact ⟨hmem, ihdat⟩
        · rw [truncTables_cons_data _ _ _ _ _ hup]
          exact ihnd
        · intro t ht
          rw [truncTables_cons_data _ _ _ _ _ hup] at ht
          exact ihnotin t ht
    · cases hrow : to_fivetran_row conv value.fields with
      | error e =>
        simp only [initialProcessValues, hrow, truncStep, if_neg hmem]
        refine ⟨?_, ?_, ?_, ?_⟩
        · rw [seenAfter_cons_trunc]
          rfl
        · rw [dataAfterTrunc_cons_trunc]
          trivial
        · rw [truncTables_cons_trunc]
          simp [truncTables]
        · intro t ht
          rw [truncTables_cons_trunc] at ht
          simp [truncTables] at ht
          subst ht
          exact hmem
      | ok row =>
        obtain ⟨ihts, ihdat, ihnd, ihnotin⟩ := ih (value.table :: s)
        simp only [initialProcessValues, hrow, truncStep, if_neg hmem, List.cons_append,
          List.nil_append]
        have hup : OpType.upsert ≠ OpType.truncate := by decide
        refine ⟨?_, ?_, ?_, ?_⟩
        · rw [seenAfter_cons_trunc, seenAfter_cons_data _ _ _ _ _ _ hup]
          exact ihts
        · rw [dataAfterTrunc_cons_trunc, dataAfterTrunc_cons_data _ _ _ _ _ _ hup]
          exact ⟨List.mem_cons_self _ _, ihdat⟩
        · rw [truncTables_cons_trunc, truncTables_cons_data _ _ _ _ _ hup, List.nodup_cons]
          exact ⟨fun hc => ihnotin _ hc (List.mem_cons_self _ _), ihnd⟩
        · intro t ht
          rw [truncTables_cons_trunc, truncTables_cons_data _ _ _ _ _ hup] at ht
          rcases List.mem_cons.1 ht with heq | ht'
          · subst heq
            exact hmem
          · intro hts
            exact ihnotin t ht' (List.mem_cons_of_mem _ hts)

lemma deltaProcessValues_truncFacts {V : Type} (conv : String → Json → Except String V) :
    ∀ (values : List SnapshotValue) (s : List String),
      (deltaProcessValues conv (some s) values).2.1 =
        some (seenAfter s (deltaProcessValues conv (some s) values).1) ∧
      dataAfterTrunc s (deltaProcessValues conv (some s) values).1 ∧
      (truncTables (deltaProcessValues conv (some s) values).1).Nodup ∧
      ∀ t ∈ truncTables (deltaProcessValues conv (some s) values).1, t ∉ s := by
  intro values
  induction values with
  | nil =>
    intro s
    refine ⟨rfl, trivial, List.nodup_nil, ?_⟩
    intro t ht
    simp [truncTables] at ht
  | cons value rest ih =>
    intro s
    have hop : (if value.deleted then OpType.delete else OpType.upsert) ≠
        OpType.truncate := by
      cases value.deleted <;> simp
    by_cases hmem : value.table ∈ s
    · cases hrow : to_fivetran_row conv value.fields with
      | error e =>
        simp only [deltaProcessValues, hrow, truncStep, if_pos hmem]
        refine ⟨rfl, trivial, List.nodup_nil, ?_⟩
        intro t ht
        simp [truncTables] at ht
      | ok row =>
        obtain ⟨ihts, ihdat, ihnd, ihnotin⟩ := ih s
        simp only [deltaProcessValues, hrow, truncStep, if_pos hmem, List.nil_append]
        refine ⟨?_, ?_, ?_, ?_⟩
        · rw [seenAfter_cons_data _ _ _ _ _ _ hop]
          exact ihts
        · rw [dataAfterTrunc_cons_data _ _ _ _ _ _ hop]
          exact ⟨hmem, ihdat⟩
        · rw [truncTables_cons_data _ _ _ _ _ hop]
          exact ihnd
        · intro t ht
          rw [truncTables_cons_data _ _ _ _ _ hop] at ht
          exact ihnotin t ht
    · cases hrow : to_fivetran_row conv value.fields with
      | error e =>
        simp only [deltaProcessValues, hrow, truncStep, if_neg hmem]
        refine ⟨?_, ?_, ?_, ?_⟩
        · rw [seenAfter_cons_trunc]
          rfl
        · rw [dataAfterTrunc_cons_trunc]
          trivial
        · rw [truncTables_cons_trunc]
          simp [truncTables]
        · intro t ht
          rw [truncTables_cons_trunc] at ht
          simp [truncTables] at ht
          subst ht
          exact hmem
      | ok row =>
        obtain ⟨ihts, ihdat, ihnd, ihnotin⟩ := ih (value.table :: s)
        simp only [deltaProcessValues, hrow, truncStep, if_neg hmem, List.cons_append,
          List.nil_append]
        refine ⟨?_, ?_, ?_, ?_⟩
        · rw [seenAfter_cons_trunc, seenAfter_cons_data _ _ _ _ _ _ hop]
          exact ihts
        · rw [dataAfterTrunc_cons_trunc, dataAfterTrunc_cons_data _ _ _ _ _ _ hop]
          exact ⟨List.mem_cons_self _ _, ihdat⟩
        · rw [truncTables_cons_trunc, truncTables_cons_data _ _ _ _ _ hop, List.nodup_cons]
          exact ⟨fun hc => ihnotin _ hc (List.mem_cons_self _ _), ihnd⟩
        · intro t ht
          rw [truncTables_cons_trunc, truncTables_cons_data _ _ _ _ _ hop] at ht
          rcases List.mem_cons.1 ht with heq | ht'
          · subst heq
            exact hmem
          · intro hts
            exact ihnotin t ht' (List.mem_cons_of_mem _ hts)

lemma initialSyncLoop_truncFacts {V : Type} (conv : String → Json → Except String V) :
    ∀ (responses : List ListSnapshotResponse) (cp : Option (Int × ListSnapshotCursor))
      (s : List String),
      dataAfterTrunc s (initialSyncLoop conv responses cp (some s)).messages ∧
      (truncTables (initialSyncLoop conv responses cp (some s)).messages).Nodup ∧
      ∀ t ∈ truncTables (initialSyncLoop conv responses cp (some s)).messages, t ∉ s := by
  intro responses
  induction responses with
  | nil =>
    intro cp s
    refine ⟨trivial, List.nodup_nil, ?_⟩
    intro t ht
    simp [initialSyncLoop, truncTables] at ht
  | cons res rest ih =>
    intro cp s
    obtain ⟨hts, hdat, hnd, hnotin⟩ := initialProcessValues_truncFacts conv res.values s
    rcases hp : initialProcessValues conv (some s) res.values with ⟨msgs, ts', errv⟩
    simp only [hp] at hts hdat hnd hnotin
    simp only [initialSyncLoop, hp]
    cases errv with
    | some e => exact ⟨hdat, hnd, hnotin⟩
    | none =>
      cases hhm : res.has_more with
      | true =>
        cases hcur : res.cursor with
        | none => exact ⟨hdat, hnd, hnotin⟩
        | some c =>
          simp only [if_true]
          rw [hts]
          obtain ⟨ihdat, ihnd, ihnotin⟩ := ih (some (res.snapshot, c)) (seenAfter s msgs)
          refine ⟨?_, ?_, ?_⟩
          · rw [dataAfterTrunc_append]
            exact ⟨hdat, ihdat⟩
          · rw [truncTables_append]
            show (truncTables msgs ++ truncTables
              (initialSyncLoop conv rest (some (res.snapshot, c))
                (some (seenAfter s msgs))).messages).Nodup
            exact List.Nodup.append hnd ihnd
              (fun a ha1 ha2 => ihnotin a ha2
                (mem_seenAfter_of_mem_truncTables msgs s a ha1))
          · intro t ht hts0
            rw [truncTables_append] at ht
            rcases List.mem_append.1 ht with htl | htr
            · exact hnotin t htl hts0
            · exact ihnotin t htr (mem_seenAfter_of_mem msgs s t hts0)
      | false =>
        cases cp with
        | none => exact ⟨hdat, hnd, hnotin⟩
        | some p =>
          obtain ⟨snapshot, c0⟩ := p
          refine ⟨?_, ?_, ?_⟩
          · show dataAfterTrunc s (msgs ++
              [UpdateMessage.checkpoint (State.create (Checkpoint.deltaUpdates snapshot) ts'),
               UpdateMessage.log LogLevel.info "Initial sync successful"])
            rw [dataAfterTrunc_append]
            exact ⟨hdat, trivial⟩
          · show (truncTables (msgs ++
              [UpdateMessage.checkpoint (State.create (Checkpoint.deltaUpdates snapshot) ts'),
               UpdateMessage.log LogLevel.info "Initial sync successful"])).Nodup
            rw [truncTables_append]
            show (truncTables msgs ++ ([] : List String)).Nodup
            rw [List.append_nil]
            exact hnd
          · intro t ht
            have ht' : t ∈ truncTables (msgs ++
              [UpdateMessage.checkpoint (State.create (Checkpoint.deltaUpdates snapshot) ts'),
               UpdateMessage.log LogLevel.info "Initial sync successful"]) := ht
            rw [truncTables_append] at ht'
            rcases List.mem_append.1 ht' with htl | htr
            · exact hnotin t htl
            · exact absurd htr (by simp [truncTables])

lemma deltaSyncLoop_truncFacts {V : Type} (conv : String → Json → Except String V) :
    ∀ (responses : List DocumentDeltasResponse) (cursor : DocumentDeltasCursor)
      (s : List String),
      dataAfterTrunc s (deltaSyncLoop conv responses cursor (some s)).messages ∧
      (truncTables (deltaSyncLoop conv responses cursor (some s)).messages).Nodup ∧
      ∀ t ∈ truncTables (deltaSyncLoop conv responses cursor (some s)).messages, t ∉ s := by
  intro responses
  induction responses with
  | nil =>
    intro cursor s
    refine ⟨trivial, List.nodup_nil, ?_⟩
    intro t ht
    simp [deltaSyncLoop, truncTables] at ht
  | cons res rest ih =>
    intro cursor s
    obtain ⟨hts, hdat, hnd, hnotin⟩ := deltaProcessValues_truncFacts conv res.values s
    rcases hp : deltaProcessValues conv (some s) res.values with ⟨msgs, ts', errv⟩
    simp only [hp] at hts hdat hnd hnotin
    simp only [deltaSyncLoop, hp]
    cases errv with
    | some e => exact ⟨hdat, hnd, hnotin⟩
    | none =>
      cases hhm : res.has_more with
      | true =>
        simp only [if_true]
        rw [hts]
        obtain ⟨ihdat, ihnd, ihnotin⟩ := ih res.cursor (seenAfter s msgs)
        refine ⟨?_, ?_, ?_⟩
        · rw [dataAfterTrunc_append]
          exact ⟨hdat, ihdat⟩
        · rw [truncTables_append]
          show (truncTables msgs ++ truncTables
            (deltaSyncLoop conv rest res.cursor (some (seenAfter s msgs))).messages).Nodup
          exact List.Nodup.append hnd ihnd
            (fun a ha1 ha2 => ihnotin a ha2
              (mem_seenAfter_of_mem_truncTables msgs s a ha1))
        · intro t ht hts0
          rw [truncTables_append] at ht
          rcases List.mem_append.1 ht with htl | htr
          · exact hnotin t htl hts0
          · exact ihnotin t htr (mem_seenAfter_of_mem msgs s t hts0)
      | false =>
        refine ⟨?_, ?_, ?_⟩
        · show dataAfterTrunc s (msgs ++
            [UpdateMessage.checkpoint (State.create (Checkpoint.deltaUpdates res.cursor) ts'),
             UpdateMessage.log LogLevel.info "Changes applied"])
          rw [dataAfterTrunc_append]
          exact ⟨hdat, trivial⟩
        · show (truncTables (msgs ++
            [UpdateMessage.checkpoint (State.create (Checkpoint.deltaUpdates res.cursor) ts'),
             UpdateMessage.log LogLevel.info "Changes applied"])).Nodup
          rw [truncTables_append]
          show (truncTables msgs ++ ([] : List String)).Nodup
          rw [List.append_nil]
          exact hnd
        · intro t ht
          have ht' : t ∈ truncTables (msgs ++
            [UpdateMessage.checkpoint (State.create (Checkpoint.deltaUpdates res.cursor) ts'),
             UpdateMessage.log LogLevel.info "Changes applied"]) := ht
          rw [truncTables_append] at ht'
          rcases List.mem_append.1 ht' with htl | htr
          · exact hnotin t htl
          · exact absurd htr (by simp [truncTables])

/-- Claim C2 counterexample: a sync invocation whose input `tables_seen`
is tracked and already contains table `t` (from an earlier run of the same
lineage) emits `Upsert`s for `t` with no `Truncate` for `t` anywhere in
the produced sequence. -/
theorem truncate_missing_for_preseen_table :
    inputTablesSeen (some ⟨1, .deltaUpdates 0, some ["t"]⟩) = some ["t"] ∧
    hasDataFor "t" (sync convId "src" (some ⟨1, .deltaUpdates 0, some ["t"]⟩) []
      [{ values := [{ table := "t", deleted := false, fields := [("_id", .str "x")] }],
         cursor := 1, has_more := false }]).messages = true ∧
    hasTruncateFor "t" (sync convId "src" (some ⟨1, .deltaUpdates 0, some ["t"]⟩) []
      [{ values := [{ table := "t", deleted := false, fields := [("_id", .str "x")] }],
         cursor := 1, has_more := false }]).messages = false :=
  ⟨rfl, rfl, rfl⟩

/-- Claim C2 amended: in every sync invocation (initial or delta) whose
input `tables_seen` is tracked, every emitted `Upsert`/`Delete` targets a
table that is either in the input `tables_seen` set or was the target of a
`Truncate` emitted strictly earlier in the sequence — i.e. a `Truncate`
precedes the first data operation of every table not already seen in the
lineage (tables already in the input set get no new `Truncate`). -/
theorem sync_truncate_before_data {V : Type} (conv : String → Json → Except String V)
    (srcName : String) (state : Option State) (lsResponses : List ListSnapshotResponse)
    (ddResponses : List DocumentDeltasResponse) (s0 : List String)
    (h : inputTablesSeen state = some s0) :
    dataAfterTrunc s0 (sync conv srcName state lsResponses ddResponses).messages := by
  cases state with
  | none =>
    have hs : s0 = [] := by
      simpa [inputTablesSeen] using h.symm
    subst hs
    exact (initialSyncLoop_truncFacts conv lsResponses none []).1
  | some s =>
    obtain ⟨ver, cp0, ts0⟩ := s
    have hs : ts0 = some s0 := h
    subst hs
    cases cp0 with
    | initialSync snapshot cursor =>
      exact (initialSyncLoop_truncFacts conv lsResponses (some (snapshot, cursor)) s0).1
    | deltaUpdates cursor =>
      exact (deltaSyncLoop_truncFacts conv ddResponses cursor s0).1

/-- Claim C2 witness: the truncate-before-data theorem applied to a fresh
sync over a concrete two-table snapshot page. -/
theorem sync_truncate_before_data_witness :
    dataAfterTrunc [] (sync convId "src" none
      [{ values := [{ table := "t1", deleted := false, fields := [("_id", .str "a")] },
                    { table := "t2", deleted := false, fields := [("_id", .str "b")] }],
         snapshot := 1, cursor := some "c", has_more := true },
       { values := [], snapshot := 1, cursor := some "c2", has_more := false }]
      []).messages :=
  sync_truncate_before_data convId "src" none
    [{ values := [{ table := "t1", deleted := false, fields := [("_id", .str "a")] },
                  { table := "t2", deleted := false, fields := [("_id", .str "b")] }],
       snapshot := 1, cursor := some "c", has_more := true },
     { values := [], snapshot := 1, cursor := some "c2", has_more := false }]
    [] [] rfl

/-- Claim C9: in every sync invocation whose input `tables_seen` is
tracked, no table is truncated twice (the truncated tables form a
duplicate-free list) and no table of the input `tables_seen` set ever
receives a `Truncate`. -/
theorem sync_truncate_at_most_once {V : Type} (conv : String → Json → Except String V)
    (srcName : String) (state : Option State) (lsResponses : List ListSnapshotResponse)
    (ddResponses : List DocumentDeltasResponse) (s0 : List String)
    (h : inputTablesSeen state = some s0) :
    (truncTables (sync conv srcName state lsResponses ddResponses).messages).Nodup ∧
    ∀ t ∈ s0, t ∉ truncTables (sync conv srcName state lsResponses ddResponses).messages := by
  cases state with
  | none =>
    have hs : s0 = [] := by
      simpa [inputTablesSeen] using h.symm
    subst hs
    obtain ⟨_, hnd, hnotin⟩ := initialSyncLoop_truncFacts conv lsResponses none []
    exact ⟨hnd, fun t hts htm => hnotin t htm hts⟩
  | some s =>
    obtain ⟨ver, cp0, ts0⟩ := s
    have hs : ts0 = some s0 := h
    subst hs
    cases cp0 with
    | initialSync snapshot cursor =>
      obtain ⟨_, hnd, hnotin⟩ :=
        initialSyncLoop_truncFacts conv lsResponses (some (snapshot, cursor)) s0
      exact ⟨hnd, fun t hts htm => hnotin t htm hts⟩
    | deltaUpdates cursor =>
      obtain ⟨_, hnd, hnotin⟩ := deltaSyncLoop_truncFacts conv ddResponses cursor s0
      exact ⟨hnd, fun t hts htm => hnotin t htm hts⟩

/-- Claim C9 witness: the at-most-one-truncate theorem applied to a resumed
delta sync whose input set already contains one table and whose page
mentions that table and a new one. -/
theorem sync_truncate_at_most_once_witness :
    (truncTables (sync convId "src" (some ⟨1, .deltaUpdates 0, some ["t"]⟩) []
      [{ values := [{ table := "t", deleted := false, fields := [("_id", .str "x")] },
                    { table := "u", deleted := false, fields := [("_id", .str "y")] },
                    { table := "u", deleted := true, fields := [("_id", .str "y")] }],
         cursor := 3, has_more := false }]).messages).Nodup ∧
    ∀ t ∈ ["t"], t ∉ truncTables (sync convId "src"
      (some ⟨1, .deltaUpdates 0, some ["t"]⟩) []
      [{ values := [{ table := "t", deleted := false, fields := [("_id", .str "x")] },
                    { table := "u", deleted := false, fields := [("_id", .str "y")] },
                    { table := "u", deleted := true, fields := [("_id", .str "y")] }],
         cursor := 3, has_more := false }]).messages :=
  sync_truncate_at_most_once convId "src" (some ⟨1, .deltaUpdates 0, some ["t"]⟩) []
    [{ values := [{ table := "t", deleted := false, fields := [("_id", .str "x")] },
                  { table := "u", deleted := false, fields := [("_id", .str "y")] },
                  { table := "u", deleted := true, fields := [("_id", .str "y")] }],
       cursor := 3, has_more := false }] ["t"] rfl

end ConvexFivetran
